import Mathlib

/-!
Verification of the composed token-classification model
(`XLMRobertaForTokenClassification` from chapter-4) and the performance
benchmark methods (`compute_size`, `time_pipeline` from the efficiency
notebook), as a shallow embedding.

Tensors are nested lists of real numbers: a batch is a list of sequences,
a sequence is a list of per-token vectors.  The encoder body (`RobertaModel`)
is an external library collaborator and is modelled as an abstract function
producing the full sequence of per-token hidden states plus opaque
pass-through data.  Dropout is modelled with an explicit Bernoulli mask
indexed by position (drop probability `p`, kept entries scaled by `1/(1-p)`,
exactly the library semantics); a mask is a possible sample only if every
dropped bit has positive drop probability.  `nn.CrossEntropyLoss()` with its
default settings (`ignore_index = -100`, mean reduction) is embedded as the
mean of `logSumExp(row) - row[target]` over the positions whose target
differs from the sentinel, raising (as an `Except` error) when the flattened
input and target lengths differ or a non-sentinel target is out of range.
-/

/-- A per-token vector of real activations. -/
abbrev TVec := List ℝ

/-- A sequence of per-token vectors (one sequence of the batch). -/
abbrev TMat := List TVec

/-- A batch of sequences of per-token vectors: shape (B, L, ·). -/
abbrev TTen := List TMat

/-- Row-major flattening of the two leading tensor dimensions, the embedding
of `view(-1, C)` on a (B, L, C) tensor and of `view(-1)` on a (B, L) one. -/
def joinAll : List (List α) → List α
  | [] => []
  | s :: t => s ++ joinAll t

/-- The model configuration: immutable record of the hyperparameters the
custom head reads (`hidden_size`, `num_labels`, `hidden_dropout_prob`). -/
structure XLMRobertaConfig where
  hidden_size : ℕ
  num_labels : ℕ
  hidden_dropout_prob : ℝ

/-- What the encoder body returns: `outputs[0]` is the full sequence of
per-token hidden states; `hidden_states` and `attentions` are opaque
pass-through data. -/
structure EncoderOutputs where
  lastHidden : TTen
  hidden_states : Option (List TTen)
  attentions : Option (List TTen)

/-- The encoder body (`RobertaModel` with `add_pooling_layer=False`), an
external collaborator: a function of the token ids, the optional attention
mask and the optional token-type ids. -/
structure Encoder where
  encode : List (List ℤ) → Option (List (List ℤ)) → Option (List (List ℤ)) → EncoderOutputs

/-- Elementwise dot product, truncating at the shorter list. -/
def dotProduct (u v : TVec) : ℝ := (List.zipWith (fun a b => a * b) u v).sum

/-- `nn.Linear` applied to one vector: one output per (weight row, bias)
pair, `dot(row, x) + bias`. -/
def linearForward (w : TMat) (b : TVec) (x : TVec) : TVec :=
  List.zipWith (fun row bi => dotProduct row x + bi) w b

/-- Dropout on one vector: entry `k` is zeroed when the mask dropped it,
otherwise rescaled by `1/(1-p)`. -/
noncomputable def dropoutVec (p : ℝ) (mk : ℕ → Bool) : TVec → TVec
  | [] => []
  | x :: xs => (if mk 0 then x / (1 - p) else 0) :: dropoutVec p (fun k => mk (k + 1)) xs

/-- Dropout on one sequence of vectors. -/
noncomputable def dropoutMat (p : ℝ) (mk : ℕ → ℕ → Bool) : TMat → TMat
  | [] => []
  | v :: s => dropoutVec p (mk 0) v :: dropoutMat p (fun j => mk (j + 1)) s

/-- Dropout on a whole (B, L, ·) tensor. -/
noncomputable def dropoutT (p : ℝ) (mk : ℕ → ℕ → ℕ → Bool) : TTen → TTen
  | [] => []
  | s :: t => dropoutMat p (mk 0) s :: dropoutT p (fun i => mk (i + 1)) t

/-- A dropout mask is a possible Bernoulli sample for drop probability `p`
only if every dropped bit has positive drop probability; in particular with
`p = 0` every bit is kept. -/
def MaskPossible (p : ℝ) (mk : ℕ → ℕ → ℕ → Bool) : Prop :=
  ∀ i j k, mk i j k = false → 0 < p

/-- Errors the forward pass can raise (inside the external loss library). -/
inductive CEError where
  | sizeMismatch : CEError
  | targetOutOfBounds : CEError
deriving DecidableEq

/-- `log (Σ exp)` over one row of logits. -/
noncomputable def logSumExp (v : TVec) : ℝ := Real.log ((v.map Real.exp).sum)

/-- The negative log-softmax of class `t` in one row of logits. -/
noncomputable def nllTerm (row : TVec) (t : ℕ) : ℝ := logSumExp row - row.getD t 0

/-- Whether a target value is legal for `C` classes: the ignore sentinel or
a genuine class index. -/
def targetOk (C : ℕ) (t : ℤ) : Bool := t == -100 || (0 ≤ t && t < (C : ℤ))

/-- `nn.CrossEntropyLoss()` with default settings on a flattened (N, C)
input and flattened length-N target: raises when the two lengths differ or
a non-sentinel target is out of `[0, C)`; otherwise averages the per-row
negative log-softmax over exactly the rows whose target is not `-100`. -/
noncomputable def crossEntropyLoss (input : TMat) (target : List ℤ) (C : ℕ) : Except CEError ℝ :=
  if input.length ≠ target.length then .error .sizeMismatch
  else if ¬ target.all (targetOk C) then .error .targetOutOfBounds
  else
    let pairs := (input.zip target).filter (fun q => q.2 ≠ -100)
    let terms := pairs.map (fun q => nllTerm q.1 q.2.toNat)
    .ok (terms.sum / terms.length)

/-- The composed model: configuration, the `self.num_labels` copy read at
construction, the owned encoder body, the dropout probability and the
classification head parameters. -/
structure XLMRobertaForTokenClassification where
  config : XLMRobertaConfig
  num_labels : ℕ
  roberta : Encoder
  dropout_p : ℝ
  classifier_weight : TMat
  classifier_bias : TVec

/-- `__init__`: read `num_labels` and `hidden_dropout_prob` from the
configuration, store the encoder body and the (randomly initialised) head
parameters `w`, `b` of the `nn.Linear(hidden_size, num_labels)` layer. -/
def XLMRobertaForTokenClassification.init (c : XLMRobertaConfig) (enc : Encoder)
    (w : TMat) (b : TVec) : XLMRobertaForTokenClassification :=
  { config := c, num_labels := c.num_labels, roberta := enc,
    dropout_p := c.hidden_dropout_prob, classifier_weight := w, classifier_bias := b }

/-- The shapes `nn.Linear(hidden_size, num_labels)` guarantees for the head
parameters stored at construction. -/
def XLMRobertaForTokenClassification.HeadWF (m : XLMRobertaForTokenClassification) : Prop :=
  m.classifier_weight.length = m.num_labels ∧ m.classifier_bias.length = m.num_labels

/-- The output record: optional scalar loss, per-token logits, and the
encoder body's opaque pass-through data. -/
structure TokenClassifierOutput where
  loss : Option ℝ
  logits : TTen
  hidden_states : Option (List TTen)
  attentions : Option (List TTen)

/-- The forward pass: run the encoder body, apply dropout to the full
hidden-state sequence, apply the linear head per token, and, when labels are
supplied, the cross-entropy loss on the flattened logits and labels.  The
(unmutated) model is returned alongside the output so that absence of
mutation is a statable fact. -/
noncomputable def XLMRobertaForTokenClassification.forward
    (m : XLMRobertaForTokenClassification)
    (input_ids : List (List ℤ)) (attention_mask : Option (List (List ℤ)))
    (token_type_ids : Option (List (List ℤ))) (labels : Option (List (List ℤ)))
    (mk : ℕ → ℕ → ℕ → Bool) :
    Except CEError (TokenClassifierOutput × XLMRobertaForTokenClassification) :=
  let outputs := m.roberta.encode input_ids attention_mask token_type_ids
  let sequence_output := dropoutT m.dropout_p mk outputs.lastHidden
  let logits := sequence_output.map
    (List.map (linearForward m.classifier_weight m.classifier_bias))
  match labels with
  | none =>
      .ok ({ loss := none, logits := logits,
             hidden_states := outputs.hidden_states,
             attentions := outputs.attentions }, m)
  | some ls =>
      match crossEntropyLoss (joinAll logits) (joinAll ls) m.num_labels with
      | .error e => .error e
      | .ok l =>
          .ok ({ loss := some l, logits := logits,
                 hidden_states := outputs.hidden_states,
                 attentions := outputs.attentions }, m)

/-- The loss of a forward result, when the call succeeded. -/
def lossOf (r : Except CEError (TokenClassifierOutput × XLMRobertaForTokenClassification)) :
    Option ℝ :=
  match r with
  | .ok q => q.1.loss
  | .error _ => none

/-- Whether a forward result is a normal return rather than a raise. -/
def isOkResult (r : Except CEError (TokenClassifierOutput × XLMRobertaForTokenClassification)) :
    Bool :=
  match r with
  | .ok _ => true
  | .error _ => false

/-!
Embedding of the `PerformanceBenchmark` methods.  The pipeline is an
external effectful collaborator: running it transforms an abstract world
state.  `perf_counter` is an external monotone clock read; successive reads
are modelled by an oracle indexed by how many reads have happened so far.
A ghost counter records how often the pipeline has been executed.
-/

/-- The benchmark's runtime state: the abstract world the pipeline acts on,
a ghost count of pipeline executions, and a count of clock reads. -/
structure BenchState (σ : Type) where
  world : σ
  pipeCalls : ℕ
  clockReads : ℕ

/-- One execution of `self.pipeline(query)`. -/
def runPipeline (pipe : σ → σ) (s : BenchState σ) : BenchState σ :=
  { world := pipe s.world, pipeCalls := s.pipeCalls + 1, clockReads := s.clockReads }

/-- One `perf_counter()` read: the oracle value at the current read index. -/
def readClock (clock : ℕ → ℝ) (s : BenchState σ) : ℝ × BenchState σ :=
  (clock s.clockReads, { s with clockReads := s.clockReads + 1 })

/-- The warmup loop: `n` untimed pipeline executions. -/
def warmupLoop (pipe : σ → σ) : ℕ → BenchState σ → BenchState σ
  | 0, s => s
  | n + 1, s => warmupLoop pipe n (runPipeline pipe s)

/-- The timed loop: `n` iterations of read the clock, run the pipeline,
read the clock again, and append the difference to the latency list. -/
def timedLoop (pipe : σ → σ) (clock : ℕ → ℝ) :
    ℕ → BenchState σ → List ℝ → List ℝ × BenchState σ
  | 0, s, acc => (acc, s)
  | n + 1, s, acc =>
      let r0 := readClock clock s
      let s2 := runPipeline pipe r0.2
      let r1 := readClock clock s2
      timedLoop pipe clock n r1.2 (acc ++ [r1.1 - r0.1])

/-- `np.mean`. -/
noncomputable def npMean (l : List ℝ) : ℝ := l.sum / l.length

/-- `np.std` (population standard deviation, the numpy default). -/
noncomputable def npStd (l : List ℝ) : ℝ :=
  Real.sqrt (npMean (l.map (fun x => (x - npMean l) ^ 2)))

/-- The record `time_pipeline` returns: exactly the two latency statistics. -/
structure LatencyResult where
  time_avg_ms : ℝ
  time_std_ms : ℝ

/-- `PerformanceBenchmark.time_pipeline`: 10 warmup runs, 100 timed runs,
then the mean and standard deviation of the timed latencies in
milliseconds. -/
noncomputable def time_pipeline (pipe : σ → σ) (clock : ℕ → ℝ) (s : BenchState σ) :
    LatencyResult × BenchState σ :=
  let s1 := warmupLoop pipe 10 s
  let r := timedLoop pipe clock 100 s1 []
  ({ time_avg_ms := 1000 * npMean r.1, time_std_ms := 1000 * npStd r.1 }, r.2)

/-!
Embedding of `PerformanceBenchmark.compute_size`.  The filesystem is an
association list from path names to file sizes in bytes; `torch.save`
writes (overwriting any previous file of that name), `stat().st_size`
reads the stored size, `unlink` removes the entry.  The size the
serialised state dictionary occupies is an external datum (`modelSize`).
-/

/-- A filesystem: association list from path names to sizes in bytes. -/
abbrev FileSys := List (String × ℕ)

/-- The temporary path the method writes to. -/
def modelPtPath : String := "model.pt"

/-- Write a file, overwriting any existing entry of the same path. -/
def fsWrite (path : String) (size : ℕ) (fs : FileSys) : FileSys :=
  (path, size) :: fs.filter (fun e => !(e.1 == path))

/-- Read a file's size (`stat().st_size`). -/
def fsStat (path : String) (fs : FileSys) : Option ℕ :=
  (fs.find? (fun e => e.1 == path)).map (fun e => e.2)

/-- Remove a file (`unlink`). -/
def fsUnlink (path : String) (fs : FileSys) : FileSys :=
  fs.filter (fun e => !(e.1 == path))

/-- The record `compute_size` returns: exactly the size in megabytes. -/
structure SizeResult where
  size_mb : ℚ

/-- `PerformanceBenchmark.compute_size`: save the state dictionary to
`model.pt`, divide its byte size by 1024·1024, delete the file, return the
megabyte size. -/
def compute_size (modelSize : ℕ) (fs : FileSys) : SizeResult × FileSys :=
  let fs1 := fsWrite modelPtPath modelSize fs
  let szBytes : ℕ := (fsStat modelPtPath fs1).getD 0
  let size_mb : ℚ := (szBytes : ℚ) / (1024 * 1024)
  let fs2 := fsUnlink modelPtPath fs1
  ({ size_mb := size_mb }, fs2)


/-!
Concrete instances used to exercise the theorems: a constant encoder body,
an all-keep dropout mask, the end-to-end scenario input
`[101, 2045, 2003, 102]`, and small models with 7-class and 2-class heads.
-/

/-- An encoder body returning fixed hidden states (the body is external;
only the shape contract matters to the head). -/
def constEncoder (h : TTen) : Encoder :=
  { encode := fun _ _ _ => { lastHidden := h, hidden_states := none, attentions := none } }

/-- The all-keep dropout mask, the only possible sample at drop
probability 0. -/
def trueMask : ℕ → ℕ → ℕ → Bool := fun _ _ _ => true

/-- Another always-keep mask, written differently. -/
def trueMask2 : ℕ → ℕ → ℕ → Bool := fun i j k => decide (0 ≤ i + j + k)

/-- The scenario input ids `[101, 2045, 2003, 102]`, batch size 1. -/
def idsScenario : List (List ℤ) := [[101, 2045, 2003, 102]]

/-- The scenario attention mask `[1, 1, 1, 1]`. -/
def amScenario : Option (List (List ℤ)) := some [[1, 1, 1, 1]]

/-- A configuration with hidden size 2, 7 labels, dropout probability 0. -/
def c1Config : XLMRobertaConfig := { hidden_size := 2, num_labels := 7, hidden_dropout_prob := 0 }

/-- Hidden states of shape (1, 4, 2) for the scenario input. -/
def c1Hidden : TTen := [[[1, 0], [0, 1], [1, 1], [0, 0]]]

/-- A 7 × 2 classifier weight. -/
def c1W : TMat := [[1, 0], [0, 1], [1, 1], [1, 0], [0, 1], [1, 1], [0, 0]]

/-- A length-7 classifier bias. -/
def c1B : TVec := [0, 0, 0, 0, 0, 0, 0]

/-- The scenario model with the 7-class head. -/
def c1Model : XLMRobertaForTokenClassification :=
  .init c1Config (constEncoder c1Hidden) c1W c1B

/-- The logits tensor the scenario forward pass produces (no labels). -/
noncomputable def c1Out : TokenClassifierOutput :=
  { loss := none,
    logits := (dropoutT c1Model.dropout_p trueMask c1Hidden).map
      (List.map (linearForward c1W c1B)),
    hidden_states := none, attentions := none }

/-- A configuration with hidden size 2, 2 labels, dropout probability 0. -/
def c2Config : XLMRobertaConfig := { hidden_size := 2, num_labels := 2, hidden_dropout_prob := 0 }

/-- Hidden states of shape (1, 4, 2) whose position 0 differs from the rest. -/
def c2Hidden : TTen := [[[1, 0], [0, 0], [0, 0], [0, 0]]]

/-- The identity-like 2 × 2 classifier weight. -/
def c2W : TMat := [[1, 0], [0, 1]]

/-- A zero 2-entry classifier bias. -/
def c2B : TVec := [0, 0]

/-- A model with the 2-class head over `c2Hidden`. -/
def c2Model : XLMRobertaForTokenClassification :=
  .init c2Config (constEncoder c2Hidden) c2W c2B

/-- Labels ignoring positions 0 and 3 (the sentinel). -/
def labA : List (List ℤ) := [[-100, 1, 0, -100]]

/-- The same labels with the ignored position 0 changed to class 0. -/
def labB : List (List ℤ) := [[0, 1, 0, -100]]

/-- Hidden states for the sentinel-congruence witness. -/
def c2wHidden1 : TTen := [[[5, 0], [1, 0], [2, 0], [3, 0]]]

/-- The same hidden states except at the ignored position 0. -/
def c2wHidden2 : TTen := [[[7, 7], [1, 0], [2, 0], [3, 0]]]

/-- A model over `c2wHidden1`. -/
def c2wModel1 : XLMRobertaForTokenClassification :=
  .init c2Config (constEncoder c2wHidden1) c2W c2B

/-- A model over `c2wHidden2`. -/
def c2wModel2 : XLMRobertaForTokenClassification :=
  .init c2Config (constEncoder c2wHidden2) c2W c2B

/-- An all-sentinel label batch of four positions. -/
def labS : List (List ℤ) := [[-100, -100, -100, -100]]

/-- A label batch of shape (2, 2): four elements, but not the logits'
leading shape (1, 4). -/
def c7Labels : List (List ℤ) := [[0, 0], [0, 0]]

/-- A label batch with three elements, fewer than the four positions. -/
def c7ShortLabels : List (List ℤ) := [[0, 0, 0]]

/-- A path different from the temporary file's path. -/
def otherPath : String := "app.log"

/-! Structural lemmas about the embedding. -/

theorem length_linearForward (w : TMat) (b : TVec) (x : TVec) :
    (linearForward w b x).length = min w.length b.length := by
  simp [linearForward]

theorem length_dropoutVec (p : ℝ) (mk : ℕ → Bool) (v : TVec) :
    (dropoutVec p mk v).length = v.length := by
  induction v generalizing mk with
  | nil => rfl
  | cons x xs ih => simp [dropoutVec, ih]

theorem length_dropoutMat (p : ℝ) (mk : ℕ → ℕ → Bool) (s : TMat) :
    (dropoutMat p mk s).length = s.length := by
  induction s generalizing mk with
  | nil => rfl
  | cons v t ih => simp [dropoutMat, ih]

theorem map_length_dropoutT (p : ℝ) (mk : ℕ → ℕ → ℕ → Bool) (t : TTen) :
    (dropoutT p mk t).map List.length = t.map List.length := by
  induction t generalizing mk with
  | nil => rfl
  | cons s r ih => simp [dropoutT, length_dropoutMat, ih]

theorem get?_dropoutMat (p : ℝ) (mk : ℕ → ℕ → Bool) (s : TMat) (j : ℕ) :
    (dropoutMat p mk s).get? j = (s.get? j).map (fun v => dropoutVec p (mk j) v) := by
  induction s generalizing mk j with
  | nil => simp [dropoutMat]
  | cons v t ih =>
      cases j with
      | zero => simp [dropoutMat]
      | succ j => simpa [dropoutMat] using ih (fun a => mk (a + 1)) j

theorem get?_dropoutT (p : ℝ) (mk : ℕ → ℕ → ℕ → Bool) (t : TTen) (i : ℕ) :
    (dropoutT p mk t).get? i = (t.get? i).map (fun s => dropoutMat p (mk i) s) := by
  induction t generalizing mk i with
  | nil => simp [dropoutT]
  | cons s r ih =>
      cases i with
      | zero => simp [dropoutT]
      | succ i => simpa [dropoutT] using ih (fun a => mk (a + 1)) i

theorem joinAll_nil : joinAll ([] : List (List α)) = [] := rfl

theorem joinAll_cons (s : List α) (t : List (List α)) :
    joinAll (s :: t) = s ++ joinAll t := rfl

theorem length_joinAll (t : List (List α)) :
    (joinAll t).length = (t.map List.length).sum := by
  induction t with
  | nil => rfl
  | cons s r ih => simp [joinAll, ih]

theorem joinAll_map (f : α → β) (t : List (List α)) :
    joinAll (t.map (List.map f)) = (joinAll t).map f := by
  induction t with
  | nil => rfl
  | cons s r ih => simp [joinAll, ih]

theorem length_joinAll_of_map_length_eq {t1 t2 : List (List α)}
    (h : t1.map List.length = t2.map List.length) :
    (joinAll t1).length = (joinAll t2).length := by
  rw [length_joinAll, length_joinAll, h]

/-- With drop probability 0 a possible mask keeps every entry, and keeping
with scale `1/(1-0)` is the identity: dropout is the identity at inference. -/
theorem dropoutVec_zero (mk : ℕ → Bool) (v : TVec) (h : ∀ k, mk k = true) :
    dropoutVec 0 mk v = v := by
  induction v generalizing mk with
  | nil => rfl
  | cons x xs ih =>
      simp [dropoutVec, h 0, ih (fun a => mk (a + 1)) (fun a => h (a + 1))]

theorem dropoutMat_zero (mk : ℕ → ℕ → Bool) (s : TMat) (h : ∀ j k, mk j k = true) :
    dropoutMat 0 mk s = s := by
  induction s generalizing mk with
  | nil => rfl
  | cons v t ih =>
      simp [dropoutMat, dropoutVec_zero _ _ (h 0),
        ih (fun a => mk (a + 1)) (fun a => h (a + 1))]

theorem dropoutT_zero (mk : ℕ → ℕ → ℕ → Bool) (t : TTen) (h : ∀ i j k, mk i j k = true) :
    dropoutT 0 mk t = t := by
  induction t generalizing mk with
  | nil => rfl
  | cons s r ih =>
      simp [dropoutT, dropoutMat_zero _ _ (h 0),
        ih (fun a => mk (a + 1)) (fun a => h (a + 1))]

/-- The flattened logits have one row per (batch, token) position of the
encoder's hidden states, whatever the head parameters and the mask. -/
theorem length_flat_logits (p : ℝ) (mk : ℕ → ℕ → ℕ → Bool) (w : TMat) (b : TVec) (h : TTen) :
    (joinAll ((dropoutT p mk h).map (List.map (linearForward w b)))).length =
      (joinAll h).length := by
  rw [joinAll_map, List.length_map]
  exact length_joinAll_of_map_length_eq (map_length_dropoutT p mk h)

/-- The negative log-softmax of an in-range class is nonnegative. -/
theorem nllTerm_nonneg (row : TVec) (t : ℕ) (ht : t < row.length) : 0 ≤ nllTerm row t := by
  have hmem : row.getD t 0 ∈ row := by
    rw [List.getD_eq_getElem row 0 ht]
    exact List.getElem_mem ht
  have hememb : Real.exp (row.getD t 0) ∈ row.map Real.exp := List.mem_map_of_mem Real.exp hmem
  have hnn : ∀ y ∈ row.map Real.exp, 0 ≤ y := by
    intro y hy
    obtain ⟨x, _, rfl⟩ := List.mem_map.mp hy
    exact le_of_lt (Real.exp_pos x)
  have hle : Real.exp (row.getD t 0) ≤ (row.map Real.exp).sum :=
    List.single_le_sum hnn _ hememb
  have hpos : 0 < (row.map Real.exp).sum := lt_of_lt_of_le (Real.exp_pos _) hle
  have hlog : row.getD t 0 ≤ Real.log ((row.map Real.exp).sum) :=
    (Real.le_log_iff_exp_le hpos).mpr hle
  simpa [nllTerm, logSumExp, sub_nonneg] using hlog

/-- When the flattened shapes line up and every target is legal, the loss
library returns a scalar, and that scalar is nonnegative. -/
theorem crossEntropyLoss_ok_nonneg (input : TMat) (target : List ℤ) (C : ℕ)
    (hlen : input.length = target.length)
    (hval : target.all (targetOk C) = true)
    (hrows : ∀ row ∈ input, row.length = C) :
    ∃ l, crossEntropyLoss input target C = .ok l ∧ 0 ≤ l := by
  have hok : crossEntropyLoss input target C =
      .ok ((((input.zip target).filter (fun q => q.2 ≠ -100)).map
        (fun q => nllTerm q.1 q.2.toNat)).sum /
        (((input.zip target).filter (fun q => q.2 ≠ -100)).map
        (fun q => nllTerm q.1 q.2.toNat)).length) := by
    rw [crossEntropyLoss, if_neg (by simp [hlen]), if_neg (by simp [hval])]
  refine ⟨_, hok, ?_⟩
  have hterm : ∀ x ∈ (((input.zip target).filter (fun q => q.2 ≠ -100)).map
        (fun q => nllTerm q.1 q.2.toNat)), 0 ≤ x := by
      intro x hx
      obtain ⟨q, hq, rfl⟩ := List.mem_map.mp hx
      have hqz : q ∈ input.zip target := List.mem_of_mem_filter hq
      have hqp : q.2 ≠ -100 := by
        have := List.of_mem_filter hq
        exact of_decide_eq_true this
      obtain ⟨h1, h2⟩ : q.1 ∈ input ∧ q.2 ∈ target := by
        have hq2 : (q.1, q.2) ∈ input.zip target := by simpa using hqz
        exact List.of_mem_zip hq2
      have hok : targetOk C q.2 = true := (List.all_eq_true.mp hval) q.2 h2
      have hrange : 0 ≤ q.2 ∧ q.2 < (C : ℤ) := by
        have hd : q.2 = -100 ∨ (0 ≤ q.2 ∧ q.2 < (C : ℤ)) := by simpa [targetOk] using hok
        rcases hd with hceq | hbnd
        · exact absurd hceq hqp
        · exact hbnd
      have htlt : q.2.toNat < q.1.length := by
        rw [hrows q.1 h1]
        omega
      exact nllTerm_nonneg q.1 q.2.toNat htlt
  exact div_nonneg (List.sum_nonneg hterm) (by positivity)

/-- Two flattened logit tensors that agree at every position whose target is
not the sentinel produce the same filtered (logit, target) pairs. -/
theorem filter_zip_congr : ∀ (xs ys : List TVec) (ts : List ℤ),
    xs.length = ys.length →
    (∀ k tv, ts.get? k = some tv → tv ≠ -100 → xs.get? k = ys.get? k) →
    (xs.zip ts).filter (fun q => q.2 ≠ -100) = (ys.zip ts).filter (fun q => q.2 ≠ -100) := by
  intro xs
  induction xs with
  | nil =>
      intro ys ts hlen _
      have : ys = [] := by
        cases ys with
        | nil => rfl
        | cons y t => simp at hlen
      subst this
      rfl
  | cons x xs ih =>
      intro ys ts hlen hag
      cases ys with
      | nil => simp at hlen
      | cons y ys =>
          cases ts with
          | nil => rfl
          | cons t ts =>
              have hlen2 : xs.length = ys.length := by simpa using hlen
              have htail : ∀ k tv, ts.get? k = some tv → tv ≠ -100 →
                  xs.get? k = ys.get? k := by
                intro k tv hk hne
                have := hag (k + 1) tv (by simpa using hk) hne
                simpa using this
              have hrec := ih ys ts hlen2 htail
              by_cases ht : t = -100
              · subst ht
                simp only [ne_eq, decide_not] at hrec ⊢
                simp [List.filter_cons, hrec]
              · have hhead : x = y := by
                  have := hag 0 t (by simp) ht
                  simpa using this
                subst hhead
                simp only [ne_eq, decide_not] at hrec ⊢
                simp [List.filter_cons, ht, hrec]

/-- The loss library's result depends only on the positions whose target is
not the ignore sentinel. -/
theorem crossEntropyLoss_congr (input1 input2 : TMat) (target : List ℤ) (C : ℕ)
    (hlen : input1.length = input2.length)
    (hag : ∀ k tv, target.get? k = some tv → tv ≠ -100 → input1.get? k = input2.get? k) :
    crossEntropyLoss input1 target C = crossEntropyLoss input2 target C := by
  rw [crossEntropyLoss, crossEntropyLoss, hlen,
    filter_zip_congr input1 input2 target hlen hag]

/-- If two hidden-state tensors have the same nested shape and the same
per-token vector at a flat position, dropout with one fixed mask keeps the
flattened tensors equal at that position. -/
theorem get?_joinAll_dropoutT_congr (p : ℝ) :
    ∀ (t1 t2 : TTen) (mk : ℕ → ℕ → ℕ → Bool) (k : ℕ),
    t1.map List.length = t2.map List.length →
    (joinAll t1).get? k = (joinAll t2).get? k →
    (joinAll (dropoutT p mk t1)).get? k = (joinAll (dropoutT p mk t2)).get? k := by
  intro t1
  induction t1 with
  | nil =>
      intro t2 mk k hsh _
      have : t2 = [] := by
        cases t2 with
        | nil => rfl
        | cons s r => simp at hsh
      subst this
      rfl
  | cons s1 r1 ih =>
      intro t2 mk k hsh hag
      cases t2 with
      | nil => simp at hsh
      | cons s2 r2 =>
          have hpair := hsh
          simp only [List.map_cons, List.cons.injEq] at hpair
          have hs : s1.length = s2.length := hpair.1
          have hr : r1.map List.length = r2.map List.length := hpair.2
          rw [joinAll_cons, joinAll_cons] at hag
          rw [dropoutT, dropoutT, joinAll_cons, joinAll_cons]
          by_cases hk : k < s1.length
          · have hk2 : k < s2.length := hs ▸ hk
            rw [List.get?_append (by rw [length_dropoutMat]; exact hk),
              List.get?_append (by rw [length_dropoutMat]; exact hk2),
              get?_dropoutMat, get?_dropoutMat]
            rw [List.get?_append hk, List.get?_append hk2] at hag
            rw [hag]
          · push_neg at hk
            have hk2 : s2.length ≤ k := hs ▸ hk
            rw [List.get?_append_right (by rw [length_dropoutMat]; exact hk),
              List.get?_append_right (by rw [length_dropoutMat]; exact hk2),
              length_dropoutMat, length_dropoutMat, ← hs]
            rw [List.get?_append_right hk, List.get?_append_right hk2, ← hs] at hag
            exact ih r2 (fun a => mk (a + 1)) (k - s1.length) hr hag

/-- A successful forward call returns exactly the logits
`classifier(dropout(hidden_states))` and the unmutated model. -/
theorem forward_ok_elim (m : XLMRobertaForTokenClassification)
    (ids : List (List ℤ)) (am t3 lbls : Option (List (List ℤ))) (mk : ℕ → ℕ → ℕ → Bool)
    (out : TokenClassifierOutput) (m2 : XLMRobertaForTokenClassification)
    (h : m.forward ids am t3 lbls mk = .ok (out, m2)) :
    out.logits = (dropoutT m.dropout_p mk (m.roberta.encode ids am t3).lastHidden).map
      (List.map (linearForward m.classifier_weight m.classifier_bias)) ∧ m2 = m := by
  cases lbls with
  | none =>
      simp only [XLMRobertaForTokenClassification.forward, Except.ok.injEq,
        Prod.mk.injEq] at h
      obtain ⟨h1, h2⟩ := h
      exact ⟨by rw [← h1], h2.symm⟩
  | some ls =>
      simp only [XLMRobertaForTokenClassification.forward] at h
      split at h
      · exact absurd h (by simp)
      · simp only [Except.ok.injEq, Prod.mk.injEq] at h
        obtain ⟨h1, h2⟩ := h
        exact ⟨by rw [← h1], h2.symm⟩

/-- Per-token output widths of the linear head over one sequence. -/
theorem shape_row (w : TMat) (b : TVec) (s : TMat) :
    (s.map (linearForward w b)).map List.length =
      List.replicate s.length (min w.length b.length) := by
  induction s with
  | nil => rfl
  | cons v t ih => simp [length_linearForward, ih, List.replicate_succ]

/-- Nested shape of the linear head applied over a whole tensor. -/
theorem shape_logits (w : TMat) (b : TVec) (t : TTen) :
    ((t.map (List.map (linearForward w b))).map (fun s => s.map List.length)) =
      t.map (fun s => List.replicate s.length (min w.length b.length)) := by
  induction t with
  | nil => rfl
  | cons s r ih => simp only [List.map_cons, shape_row, ih]

/-- Mapping a function of the row lengths factors through the lengths. -/
theorem map_comp_length (f : ℕ → β) (t : List (List α)) :
    t.map (fun s => f s.length) = (t.map List.length).map f := by
  rw [List.map_map]
  rfl

/-- Equal nested row lengths give equal replicate images. -/
theorem map_replicate_of_length_eq (C : ℕ) {t1 : List (List α)} {t2 : List (List β)}
    (h : t1.map List.length = t2.map List.length) :
    t1.map (fun s => List.replicate s.length C) = t2.map (fun s => List.replicate s.length C) := by
  rw [map_comp_length (fun n => List.replicate n C) t1,
    map_comp_length (fun n => List.replicate n C) t2, h]

/-- C1: every forward invocation of the composed model on a batch of token
identifier sequences returns logits of shape (B, L, num_labels) — one row
per input sequence, one entry per token, `num_labels` scores per token —
whether or not a gold-label sequence was supplied. -/
theorem c1_logits_shape (c : XLMRobertaConfig) (enc : Encoder) (w : TMat) (b : TVec)
    (ids : List (List ℤ)) (am t3 lbls : Option (List (List ℤ))) (mk : ℕ → ℕ → ℕ → Bool)
    (out : TokenClassifierOutput) (m2 : XLMRobertaForTokenClassification)
    (hw : w.length = c.num_labels) (hb : b.length = c.num_labels)
    (hshape : (enc.encode ids am t3).lastHidden.map List.length = ids.map List.length)
    (hfwd : (XLMRobertaForTokenClassification.init c enc w b).forward ids am t3 lbls mk
      = .ok (out, m2)) :
    out.logits.map (fun s => s.map List.length) =
      ids.map (fun r => List.replicate r.length c.num_labels) := by
  obtain ⟨hlog, _⟩ := forward_ok_elim _ _ _ _ _ _ _ _ hfwd
  simp only [XLMRobertaForTokenClassification.init] at hlog
  rw [hlog, shape_logits, hw, hb, min_self]
  have hlen : (dropoutT c.hidden_dropout_prob mk (enc.encode ids am t3).lastHidden).map
      List.length = ids.map List.length := by
    rw [map_length_dropoutT]
    exact hshape
  exact map_replicate_of_length_eq c.num_labels hlen

/-- Witness for C1: the end-to-end scenario — input `[101, 2045, 2003, 102]`
with attention mask `[1, 1, 1, 1]` and 7 labels yields logits of shape
(1, 4, 7). -/
theorem c1_logits_shape_witness :
    (c1W.length = c1Config.num_labels ∧ c1B.length = c1Config.num_labels ∧
      ((constEncoder c1Hidden).encode idsScenario amScenario none).lastHidden.map List.length
        = idsScenario.map List.length) ∧
    c1Out.logits.map (fun s => s.map List.length) =
      idsScenario.map (fun r => List.replicate r.length c1Config.num_labels) ∧
    idsScenario.map (fun r => List.replicate r.length c1Config.num_labels) = [[7, 7, 7, 7]] :=
  ⟨⟨rfl, rfl, rfl⟩,
    c1_logits_shape c1Config (constEncoder c1Hidden) c1W c1B idsScenario amScenario
      none none trueMask c1Out c1Model rfl rfl rfl rfl,
    by decide⟩

/-- C4: the per-token logits are computed as
`classifier(dropout(hidden_states))` over the full sequence of per-token
hidden states (one logits row per hidden-state row, not a pooled summary),
and at every token position (i, j) the logits are the linear projection of
the dropout-transformed hidden vector at that position. -/
theorem c4_per_token_pipeline (m : XLMRobertaForTokenClassification)
    (ids : List (List ℤ)) (am t3 lbls : Option (List (List ℤ))) (mk : ℕ → ℕ → ℕ → Bool)
    (out : TokenClassifierOutput) (m2 : XLMRobertaForTokenClassification)
    (hfwd : m.forward ids am t3 lbls mk = .ok (out, m2)) :
    out.logits = (dropoutT m.dropout_p mk (m.roberta.encode ids am t3).lastHidden).map
      (List.map (linearForward m.classifier_weight m.classifier_bias)) ∧
    out.logits.map List.length = (m.roberta.encode ids am t3).lastHidden.map List.length ∧
    ∀ i j v, ((m.roberta.encode ids am t3).lastHidden.get? i).bind (fun s => s.get? j) = some v →
      (out.logits.get? i).bind (fun row => row.get? j) =
        some (linearForward m.classifier_weight m.classifier_bias
          (dropoutVec m.dropout_p (mk i j) v)) := by
  obtain ⟨hlog, _⟩ := forward_ok_elim _ _ _ _ _ _ _ _ hfwd
  refine ⟨hlog, ?_, ?_⟩
  · rw [hlog, List.map_map]
    have hcomp : (List.length ∘ List.map
        (linearForward m.classifier_weight m.classifier_bias)) = List.length :=
      funext fun s => by simp
    rw [hcomp, map_length_dropoutT]
  · intro i j v hv
    cases hi : (m.roberta.encode ids am t3).lastHidden.get? i with
    | none => rw [hi] at hv; simp at hv
    | some s =>
        rw [hi] at hv
        simp only [Option.some_bind] at hv
        rw [hlog, List.get?_map, get?_dropoutT, hi]
        simp [List.get?_map, get?_dropoutMat, hv]
        exact ⟨dropoutVec m.dropout_p (mk i j) v,
          by rw [← List.get?_eq_getElem?, get?_dropoutMat, hv]; rfl, rfl⟩

/-- Witness for C4: in the scenario forward pass, the token at position
(0, 1) receives exactly the linear projection of its dropout-transformed
hidden vector. -/
theorem c4_per_token_pipeline_witness :
    c1Out.logits = (dropoutT c1Model.dropout_p trueMask
      (c1Model.roberta.encode idsScenario amScenario none).lastHidden).map
      (List.map (linearForward c1Model.classifier_weight c1Model.classifier_bias)) ∧
    (c1Out.logits.get? 0).bind (fun row => row.get? 1) =
      some (linearForward c1Model.classifier_weight c1Model.classifier_bias
        (dropoutVec c1Model.dropout_p (trueMask 0 1) [0, 1])) :=
  ⟨(c4_per_token_pipeline c1Model idsScenario amScenario none none trueMask c1Out
      c1Model rfl).1,
    (c4_per_token_pipeline c1Model idsScenario amScenario none none trueMask c1Out
      c1Model rfl).2.2 0 1 [0, 1] rfl⟩

/-- C8: the configuration is read only at construction time — `__init__`
copies `num_labels` and `hidden_dropout_prob` out of it and stores it
unchanged — and no forward invocation mutates the model or its
configuration record. -/
theorem c8_config_immutable (c : XLMRobertaConfig) (enc : Encoder) (w : TMat) (b : TVec) :
    ((XLMRobertaForTokenClassification.init c enc w b).config = c ∧
     (XLMRobertaForTokenClassification.init c enc w b).num_labels = c.num_labels ∧
     (XLMRobertaForTokenClassification.init c enc w b).dropout_p = c.hidden_dropout_prob) ∧
    ∀ (m : XLMRobertaForTokenClassification) (ids : List (List ℤ))
      (am t3 lbls : Option (List (List ℤ))) (mk : ℕ → ℕ → ℕ → Bool)
      (out : TokenClassifierOutput) (m2 : XLMRobertaForTokenClassification),
      m.forward ids am t3 lbls mk = .ok (out, m2) → m2 = m ∧ m2.config = m.config := by
  refine ⟨⟨rfl, rfl, rfl⟩, ?_⟩
  intro m ids am t3 lbls mk out m2 hfwd
  obtain ⟨_, hm⟩ := forward_ok_elim _ _ _ _ _ _ _ _ hfwd
  exact ⟨hm, by rw [hm]⟩

/-- Witness for C8: the scenario model's construction reads the
configuration fields, and its forward pass returns the model unchanged. -/
theorem c8_config_immutable_witness :
    (c1Model.config = c1Config ∧ c1Model.num_labels = c1Config.num_labels ∧
     c1Model.dropout_p = c1Config.hidden_dropout_prob) ∧
    (c1Model = c1Model ∧ c1Model.config = c1Model.config) :=
  ⟨(c8_config_immutable c1Config (constEncoder c1Hidden) c1W c1B).1,
    (c8_config_immutable c1Config (constEncoder c1Hidden) c1W c1B).2 c1Model idsScenario
      amScenario none none trueMask c1Out c1Model rfl⟩

/-- C6: with dropout probability 0 (inference mode) and fixed parameters
the forward pass is deterministic — any two possible dropout samples give
identical results, so repeated invocations on identical input produce
identical logits. -/
theorem c6_inference_deterministic (m : XLMRobertaForTokenClassification)
    (ids : List (List ℤ)) (am t3 lbls : Option (List (List ℤ)))
    (mk1 mk2 : ℕ → ℕ → ℕ → Bool)
    (hp : m.dropout_p = 0)
    (h1 : MaskPossible m.dropout_p mk1) (h2 : MaskPossible m.dropout_p mk2) :
    m.forward ids am t3 lbls mk1 = m.forward ids am t3 lbls mk2 := by
  have hall1 : ∀ i j k, mk1 i j k = true := by
    intro i j k
    cases hb : mk1 i j k with
    | false => exact absurd (h1 i j k hb) (by rw [hp]; exact lt_irrefl 0)
    | true => rfl
  have hall2 : ∀ i j k, mk2 i j k = true := by
    intro i j k
    cases hb : mk2 i j k with
    | false => exact absurd (h2 i j k hb) (by rw [hp]; exact lt_irrefl 0)
    | true => rfl
  have hd1 : dropoutT m.dropout_p mk1 (m.roberta.encode ids am t3).lastHidden =
      (m.roberta.encode ids am t3).lastHidden := by
    rw [hp]
    exact dropoutT_zero mk1 _ hall1
  have hd2 : dropoutT m.dropout_p mk2 (m.roberta.encode ids am t3).lastHidden =
      (m.roberta.encode ids am t3).lastHidden := by
    rw [hp]
    exact dropoutT_zero mk2 _ hall2
  cases lbls with
  | none => simp only [XLMRobertaForTokenClassification.forward, hd1, hd2]
  | some ls => simp only [XLMRobertaForTokenClassification.forward, hd1, hd2]

/-- Witness for C6: the scenario model has dropout probability 0 and two
differently written all-keep masks give the same forward result. -/
theorem c6_inference_deterministic_witness :
    c1Model.dropout_p = 0 ∧
    c1Model.forward idsScenario amScenario none none trueMask =
      c1Model.forward idsScenario amScenario none none trueMask2 :=
  ⟨rfl, c6_inference_deterministic c1Model idsScenario amScenario none none trueMask
    trueMask2 rfl (fun i j k h => by simp [trueMask] at h)
    (fun i j k h => by simp [trueMask2] at h)⟩

/-- C3: the forward pass returns an absent loss exactly when no gold-label
sequence is supplied — omission is inference mode, not an error — and with
labels of matching flattened shape, legal values and at least one
non-sentinel position, the returned loss is a defined scalar ≥ 0.  (With
every label equal to the sentinel the library's mean is the undefined 0/0,
treated separately by the all-sentinel theorem.) -/
theorem c3_loss_presence (m : XLMRobertaForTokenClassification)
    (ids : List (List ℤ)) (am t3 : Option (List (List ℤ))) (ls : List (List ℤ))
    (mk : ℕ → ℕ → ℕ → Bool)
    (hwf : m.HeadWF)
    (hlen : (joinAll (m.roberta.encode ids am t3).lastHidden).length = (joinAll ls).length)
    (hval : (joinAll ls).all (targetOk m.num_labels) = true)
    (_hsome : ∃ t ∈ joinAll ls, t ≠ -100) :
    lossOf (m.forward ids am t3 none mk) = none ∧
    ∃ l, lossOf (m.forward ids am t3 (some ls) mk) = some l ∧ 0 ≤ l := by
  constructor
  · simp [XLMRobertaForTokenClassification.forward, lossOf]
  · simp only [XLMRobertaForTokenClassification.forward]
    set I := joinAll ((dropoutT m.dropout_p mk (m.roberta.encode ids am t3).lastHidden).map
      (List.map (linearForward m.classifier_weight m.classifier_bias))) with hI
    have hIlen : I.length = (joinAll ls).length := by
      rw [hI, length_flat_logits]
      exact hlen
    have hrows : ∀ row ∈ I, row.length = m.num_labels := by
      intro row hrow
      rw [hI, joinAll_map] at hrow
      obtain ⟨x, _, rfl⟩ := List.mem_map.mp hrow
      rw [length_linearForward, hwf.1, hwf.2, min_self]
    obtain ⟨l, hce, hl⟩ := crossEntropyLoss_ok_nonneg I (joinAll ls) m.num_labels
      hIlen hval hrows
    refine ⟨l, ?_, hl⟩
    rw [hce]
    simp [lossOf]

/-- Witness for C3: the 2-class model with labels `[-100, 1, 0, -100]`
returns no loss without labels and a nonnegative scalar loss with them. -/
theorem c3_loss_presence_witness :
    (c2Model.HeadWF ∧
     (joinAll (c2Model.roberta.encode idsScenario amScenario none).lastHidden).length
       = (joinAll labA).length ∧
     (joinAll labA).all (targetOk c2Model.num_labels) = true ∧
     (∃ t ∈ joinAll labA, t ≠ -100)) ∧
    lossOf (c2Model.forward idsScenario amScenario none none trueMask) = none ∧
    ∃ l, lossOf (c2Model.forward idsScenario amScenario none (some labA) trueMask)
      = some l ∧ 0 ≤ l :=
  ⟨⟨⟨rfl, rfl⟩, rfl, by decide, by decide⟩,
    c3_loss_presence c2Model idsScenario amScenario none labA trueMask ⟨rfl, rfl⟩ rfl
      (by decide) (by decide)⟩

/-- C5: a forward invocation whose labels are all the ignore sentinel does
not raise, and the loss has no contribution from any position: two models
with arbitrary different weights and hidden states (of the right flattened
count) produce identical losses, so no position's logits are used. -/
theorem c5_all_sentinel (m1 m2 : XLMRobertaForTokenClassification)
    (ids : List (List ℤ)) (am t3 : Option (List (List ℤ))) (ls : List (List ℤ))
    (mk1 mk2 : ℕ → ℕ → ℕ → Bool)
    (hall : (joinAll ls).all (fun t => t == -100) = true)
    (hlen1 : (joinAll (m1.roberta.encode ids am t3).lastHidden).length = (joinAll ls).length)
    (hlen2 : (joinAll (m2.roberta.encode ids am t3).lastHidden).length = (joinAll ls).length) :
    isOkResult (m1.forward ids am t3 (some ls) mk1) = true ∧
    lossOf (m1.forward ids am t3 (some ls) mk1) =
      lossOf (m2.forward ids am t3 (some ls) mk2) := by
  have hpairs : ∀ input : TMat,
      (input.zip (joinAll ls)).filter (fun q => q.2 ≠ -100) = [] := by
    intro input
    apply List.filter_eq_nil.mpr
    intro q hq
    have hq2 : q.2 ∈ joinAll ls := by
      have hp : (q.1, q.2) ∈ input.zip (joinAll ls) := by simpa using hq
      exact (List.of_mem_zip hp).2
    have hqv : (q.2 == -100) = true := (List.all_eq_true.mp hall) q.2 hq2
    simp [beq_iff_eq.mp hqv]
  have hvalC : ∀ C : ℕ, (joinAll ls).all (targetOk C) = true := by
    intro C
    apply List.all_eq_true.mpr
    intro t ht
    have hts : (t == -100) = true := (List.all_eq_true.mp hall) t ht
    simp [targetOk, hts]
  have hce : ∀ (input : TMat) (C : ℕ), input.length = (joinAll ls).length →
      crossEntropyLoss input (joinAll ls) C =
        .ok (List.sum ([] : List ℝ) / ((List.length ([] : List ℝ) : ℕ) : ℝ)) := by
    intro input C hli
    rw [crossEntropyLoss, if_neg (by simp [hli]), if_neg (by simp [hvalC C])]
    rw [hpairs input]
    rfl
  have hl1 : (joinAll ((dropoutT m1.dropout_p mk1 (m1.roberta.encode ids am t3).lastHidden).map
      (List.map (linearForward m1.classifier_weight m1.classifier_bias)))).length
      = (joinAll ls).length := by
    rw [length_flat_logits]
    exact hlen1
  have hl2 : (joinAll ((dropoutT m2.dropout_p mk2 (m2.roberta.encode ids am t3).lastHidden).map
      (List.map (linearForward m2.classifier_weight m2.classifier_bias)))).length
      = (joinAll ls).length := by
    rw [length_flat_logits]
    exact hlen2
  constructor
  · simp only [XLMRobertaForTokenClassification.forward]
    rw [hce _ m1.num_labels hl1]
    rfl
  · simp only [XLMRobertaForTokenClassification.forward]
    rw [hce _ m1.num_labels hl1, hce _ m2.num_labels hl2]
    rfl

/-- Witness for C5: two different models with four all-sentinel labels both
return normally with equal (contribution-free) losses. -/
theorem c5_all_sentinel_witness :
    ((joinAll labS).all (fun t => t == -100) = true ∧
     (joinAll (c2Model.roberta.encode idsScenario amScenario none).lastHidden).length
       = (joinAll labS).length ∧
     (joinAll (c2wModel1.roberta.encode idsScenario amScenario none).lastHidden).length
       = (joinAll labS).length) ∧
    isOkResult (c2Model.forward idsScenario amScenario none (some labS) trueMask) = true ∧
    lossOf (c2Model.forward idsScenario amScenario none (some labS) trueMask) =
      lossOf (c2wModel1.forward idsScenario amScenario none (some labS) trueMask2) :=
  ⟨⟨by decide, rfl, rfl⟩,
    c5_all_sentinel c2Model c2wModel1 idsScenario amScenario none labS trueMask trueMask2
      (by decide) rfl rfl⟩

/-- C7 (amended): a forward invocation with labels whose flattened element
count differs from the number of token positions of the logits raises a
size-mismatch error that propagates to the caller (no retry, no local
recovery); a label tensor whose (batch, seq) shape differs but whose
element count coincides is accepted silently. -/
theorem c7_count_mismatch_raises (m : XLMRobertaForTokenClassification)
    (ids : List (List ℤ)) (am t3 : Option (List (List ℤ))) (ls : List (List ℤ))
    (mk : ℕ → ℕ → ℕ → Bool)
    (hmis : (joinAll (m.roberta.encode ids am t3).lastHidden).length ≠ (joinAll ls).length) :
    m.forward ids am t3 (some ls) mk = .error .sizeMismatch := by
  simp only [XLMRobertaForTokenClassification.forward]
  have hlen : (joinAll ((dropoutT m.dropout_p mk (m.roberta.encode ids am t3).lastHidden).map
      (List.map (linearForward m.classifier_weight m.classifier_bias)))).length
      ≠ (joinAll ls).length := by
    rw [length_flat_logits]
    exact hmis
  rw [crossEntropyLoss, if_pos hlen]

/-- Witness for C7 (amended): three label elements against four token
positions raise the size-mismatch error. -/
theorem c7_count_mismatch_raises_witness :
    (joinAll (c2Model.roberta.encode idsScenario amScenario none).lastHidden).length ≠
      (joinAll c7ShortLabels).length ∧
    c2Model.forward idsScenario amScenario none (some c7ShortLabels) trueMask =
      .error .sizeMismatch :=
  ⟨by decide,
    c7_count_mismatch_raises c2Model idsScenario amScenario none c7ShortLabels trueMask
      (by decide)⟩

/-- Counterexample to C7 as stated: labels of shape (2, 2) do not match the
logits' leading shape (1, 4), yet the forward invocation does not fail —
only the flattened element count is checked, so the call returns normally. -/
theorem c7_counterexample :
    c7Labels.map List.length ≠ idsScenario.map List.length ∧
    isOkResult (c2Model.forward idsScenario amScenario none (some c7Labels) trueMask)
      = true :=
  ⟨by decide, rfl⟩

/-- C2 (amended): the cross-entropy loss excludes every position whose
label equals the ignore sentinel: the loss is a function of only the
non-sentinel positions — two forward passes with the same head, dropout
sample and labels whose hidden states agree at every non-sentinel flat
position (and have the same nested shape) produce the same loss, whatever
the hidden states at ignored positions are. -/
theorem c2_loss_excludes_sentinel (m1 m2 : XLMRobertaForTokenClassification)
    (ids : List (List ℤ)) (am t3 : Option (List (List ℤ))) (ls : List (List ℤ))
    (mk : ℕ → ℕ → ℕ → Bool)
    (hw : m1.classifier_weight = m2.classifier_weight)
    (hbias : m1.classifier_bias = m2.classifier_bias)
    (hp : m1.dropout_p = m2.dropout_p)
    (hn : m1.num_labels = m2.num_labels)
    (hsh : (m1.roberta.encode ids am t3).lastHidden.map List.length =
      (m2.roberta.encode ids am t3).lastHidden.map List.length)
    (hag : ∀ k tv, (joinAll ls).get? k = some tv → tv ≠ -100 →
      (joinAll (m1.roberta.encode ids am t3).lastHidden).get? k =
        (joinAll (m2.roberta.encode ids am t3).lastHidden).get? k) :
    lossOf (m1.forward ids am t3 (some ls) mk) =
      lossOf (m2.forward ids am t3 (some ls) mk) := by
  simp only [XLMRobertaForTokenClassification.forward, joinAll_map]
  rw [← hw, ← hbias, ← hp, ← hn]
  have hCE : crossEntropyLoss
      ((joinAll (dropoutT m1.dropout_p mk (m1.roberta.encode ids am t3).lastHidden)).map
        (linearForward m1.classifier_weight m1.classifier_bias)) (joinAll ls) m1.num_labels =
      crossEntropyLoss
      ((joinAll (dropoutT m1.dropout_p mk (m2.roberta.encode ids am t3).lastHidden)).map
        (linearForward m1.classifier_weight m1.classifier_bias)) (joinAll ls) m1.num_labels := by
    apply crossEntropyLoss_congr
    · simp only [List.length_map]
      exact length_joinAll_of_map_length_eq
        ((map_length_dropoutT _ _ _).trans (hsh.trans (map_length_dropoutT _ _ _).symm))
    · intro k tv hk hne
      rw [List.get?_map, List.get?_map,
        get?_joinAll_dropoutT_congr m1.dropout_p
          (m1.roberta.encode ids am t3).lastHidden
          (m2.roberta.encode ids am t3).lastHidden mk k hsh (hag k tv hk hne)]
  rw [hCE]
  cases hres : crossEntropyLoss
      ((joinAll (dropoutT m1.dropout_p mk (m2.roberta.encode ids am t3).lastHidden)).map
        (linearForward m1.classifier_weight m1.classifier_bias)) (joinAll ls) m1.num_labels with
  | error e => simp [lossOf]
  | ok l => simp [lossOf]

/-- Witness for C2 (amended): two models whose hidden states differ only at
flat position 0 — which labels `[-100, 1, 0, -100]` mark with the
sentinel — produce the same loss. -/
theorem c2_loss_excludes_sentinel_witness :
    (c2wHidden1.map List.length = c2wHidden2.map List.length ∧
     (joinAll labA).get? 0 = some (-100) ∧
     (joinAll c2wHidden1).get? 1 = (joinAll c2wHidden2).get? 1) ∧
    lossOf (c2wModel1.forward idsScenario amScenario none (some labA) trueMask) =
      lossOf (c2wModel2.forward idsScenario amScenario none (some labA) trueMask) :=
  ⟨⟨by decide, by decide, rfl⟩,
    c2_loss_excludes_sentinel c2wModel1 c2wModel2 idsScenario amScenario none labA
      trueMask rfl rfl rfl rfl (by decide)
      (by
        intro k tv hk hne
        rcases k with _ | _ | _ | _ | k
        · simp [joinAll, labA] at hk
          exact absurd hk.symm hne
        · rfl
        · rfl
        · simp [joinAll, labA] at hk
          exact absurd hk.symm hne
        · simp [joinAll, labA] at hk)⟩

/-- Counterexample to C2 as stated: with fixed logits, changing the label
at ignored position 0 from the sentinel `-100` to the class `0` changes the
computed loss — the position stops being excluded, so the mean gains a
term.  Labels `[-100, 1, 0, -100]` and `[0, 1, 0, -100]` agree everywhere
except at position 0, where the first holds the sentinel, yet the two
losses differ. -/
theorem c2_counterexample :
    (joinAll labA).getD 0 0 = -100 ∧
    (joinAll labA).drop 1 = (joinAll labB).drop 1 ∧
    lossOf (c2Model.forward idsScenario amScenario none (some labA) trueMask) ≠
      lossOf (c2Model.forward idsScenario amScenario none (some labB) trueMask) := by
  refine ⟨by decide, by decide, ?_⟩
  have hdp : c2Model.dropout_p = 0 := rfl
  have hdrop : dropoutT c2Model.dropout_p trueMask c2Hidden = c2Hidden := by
    rw [hdp]
    exact dropoutT_zero _ _ (fun i j k => rfl)
  have hlin1 : linearForward c2Model.classifier_weight c2Model.classifier_bias [1, 0]
      = [1, 0] := by
    show linearForward c2W c2B [1, 0] = [1, 0]
    norm_num [linearForward, dotProduct, c2W, c2B]
  have hlin0 : linearForward c2Model.classifier_weight c2Model.classifier_bias [0, 0]
      = [0, 0] := by
    show linearForward c2W c2B [0, 0] = [0, 0]
    norm_num [linearForward, dotProduct, c2W, c2B]
  have hI : joinAll ((dropoutT c2Model.dropout_p trueMask
      ((c2Model.roberta.encode idsScenario amScenario none).lastHidden)).map
      (List.map (linearForward c2Model.classifier_weight c2Model.classifier_bias)))
      = [[(1:ℝ), 0], [0, 0], [0, 0], [0, 0]] := by
    show joinAll ((dropoutT c2Model.dropout_p trueMask c2Hidden).map
      (List.map (linearForward c2Model.classifier_weight c2Model.classifier_bias)))
      = [[(1:ℝ), 0], [0, 0], [0, 0], [0, 0]]
    rw [hdrop]
    simp [c2Hidden, joinAll, hlin1, hlin0]
  have hnll0 : nllTerm [(0:ℝ), 0] 0 = Real.log 2 := by
    simp [nllTerm, logSumExp, Real.exp_zero]
    norm_num
  have hnll1 : nllTerm [(0:ℝ), 0] 1 = Real.log 2 := by
    simp [nllTerm, logSumExp, Real.exp_zero]
    norm_num
  have hnllX : nllTerm [(1:ℝ), 0] 0 = Real.log (Real.exp 1 + 1) - 1 := by
    simp [nllTerm, logSumExp, Real.exp_zero]
  have hceA : crossEntropyLoss [[(1:ℝ), 0], [0, 0], [0, 0], [0, 0]] (joinAll labA)
      c2Model.num_labels = .ok (Real.log 2) := by
    rw [crossEntropyLoss, if_neg (by decide), if_neg (by decide)]
    simp only [joinAll, labA, List.append_nil, List.zip_cons_cons, List.zip_nil_right,
      List.filter]
    norm_num [hnll0, hnll1]
  have hceB : crossEntropyLoss [[(1:ℝ), 0], [0, 0], [0, 0], [0, 0]] (joinAll labB)
      c2Model.num_labels
      = .ok ((Real.log (Real.exp 1 + 1) - 1 + (Real.log 2 + Real.log 2)) / 3) := by
    rw [crossEntropyLoss, if_neg (by decide), if_neg (by decide)]
    simp only [joinAll, labB, List.append_nil, List.zip_cons_cons, List.zip_nil_right,
      List.filter]
    norm_num [hnll0, hnll1, hnllX]
  have hLA : lossOf (c2Model.forward idsScenario amScenario none (some labA) trueMask)
      = some (Real.log 2) := by
    simp only [XLMRobertaForTokenClassification.forward]
    rw [hI, hceA]
    rfl
  have hLB : lossOf (c2Model.forward idsScenario amScenario none (some labB) trueMask)
      = some ((Real.log (Real.exp 1 + 1) - 1 + (Real.log 2 + Real.log 2)) / 3) := by
    simp only [XLMRobertaForTokenClassification.forward]
    rw [hI, hceB]
    rfl
  rw [hLA, hLB]
  have h1 : (1:ℝ) < Real.exp 1 := by
    have := Real.exp_one_gt_d9
    linarith
  have h3 : (0:ℝ) < Real.exp 1 + 1 := by positivity
  have hkey : Real.log (Real.exp 1 + 1) < Real.log 2 + 1 := by
    have h2 : Real.exp 1 + 1 < 2 * Real.exp 1 := by linarith
    have hlt := Real.log_lt_log h3 h2
    rwa [Real.log_mul (by norm_num) (Real.exp_ne_zero 1), Real.log_exp] at hlt
  intro hcontra
  rw [Option.some_inj] at hcontra
  linarith [hkey]

/-- The warmup loop runs the pipeline `n` times and reads no clock. -/
theorem warmupLoop_spec (pipe : σ → σ) : ∀ (n : ℕ) (s : BenchState σ),
    warmupLoop pipe n s =
      { world := pipe^[n] s.world, pipeCalls := s.pipeCalls + n,
        clockReads := s.clockReads } := by
  intro n
  induction n with
  | zero => intro s; simp [warmupLoop]
  | succ n ih =>
      intro s
      rw [warmupLoop, ih]
      have harith : s.pipeCalls + 1 + n = s.pipeCalls + (n + 1) := by omega
      simp [runPipeline, Function.iterate_succ_apply, harith]

/-- The timed loop runs the pipeline `n` times, reads the clock twice per
run, and appends each run's clock difference to the latency list. -/
theorem timedLoop_spec (pipe : σ → σ) (clock : ℕ → ℝ) : ∀ (n : ℕ) (s : BenchState σ)
    (acc : List ℝ),
    timedLoop pipe clock n s acc =
      (acc ++ (List.range n).map
        (fun i => clock (s.clockReads + 2 * i + 1) - clock (s.clockReads + 2 * i)),
       { world := pipe^[n] s.world, pipeCalls := s.pipeCalls + n,
         clockReads := s.clockReads + 2 * n }) := by
  intro n
  induction n with
  | zero => intro s acc; simp [timedLoop]
  | succ n ih =>
      intro s acc
      rw [timedLoop]
      simp only [readClock, runPipeline]
      rw [ih]
      dsimp only
      have hlist : (List.range (n + 1)).map
          (fun i => clock (s.clockReads + 2 * i + 1) - clock (s.clockReads + 2 * i)) =
          (clock (s.clockReads + 1) - clock s.clockReads) ::
            (List.range n).map
              (fun i => clock (s.clockReads + 1 + 1 + 2 * i + 1) -
                clock (s.clockReads + 1 + 1 + 2 * i)) := by
        rw [List.range_succ_eq_map, List.map_cons, List.map_map]
        have h0 : s.clockReads + 2 * 0 = s.clockReads := by omega
        have h1 : s.clockReads + 2 * 0 + 1 = s.clockReads + 1 := by omega
        rw [h0, h1]
        have hmaps : (List.range n).map
            ((fun i => clock (s.clockReads + 2 * i + 1) - clock (s.clockReads + 2 * i))
              ∘ Nat.succ) =
            (List.range n).map
              (fun i => clock (s.clockReads + 1 + 1 + 2 * i + 1) -
                clock (s.clockReads + 1 + 1 + 2 * i)) := by
          apply List.map_congr_left
          intro i _
          have e1 : s.clockReads + 2 * Nat.succ i = s.clockReads + 1 + 1 + 2 * i := by omega
          have e2 : s.clockReads + 2 * Nat.succ i + 1 = s.clockReads + 1 + 1 + 2 * i + 1 := by
            omega
          simp only [Function.comp]
          rw [e1]
        rw [hmaps]
      rw [hlist]
      simp [Function.iterate_succ_apply, BenchState.mk.injEq]
      omega

/-- C9: `time_pipeline` executes the pipeline exactly 110 times — 10
untimed warmup runs (no clock reads) followed by 100 timed runs — and
returns a record holding exactly the mean and the population standard
deviation, in milliseconds, of the 100 timed latencies, each latency being
the difference of the two clock reads around one run. -/
theorem c9_time_pipeline (pipe : σ → σ) (clock : ℕ → ℝ) (s : BenchState σ) :
    time_pipeline pipe clock s =
      ({ time_avg_ms := 1000 * npMean ((List.range 100).map
           (fun i => clock (s.clockReads + 2 * i + 1) - clock (s.clockReads + 2 * i))),
         time_std_ms := 1000 * npStd ((List.range 100).map
           (fun i => clock (s.clockReads + 2 * i + 1) - clock (s.clockReads + 2 * i))) },
       { world := pipe^[110] s.world, pipeCalls := s.pipeCalls + 110,
         clockReads := s.clockReads + 200 }) := by
  rw [time_pipeline, warmupLoop_spec, timedLoop_spec]
  dsimp only
  have hiter : pipe^[100] (pipe^[10] s.world) = pipe^[110] s.world := by
    rw [← Function.iterate_add_apply]
  have hpc : s.pipeCalls + 10 + 100 = s.pipeCalls + 110 := by omega
  have hcr : s.clockReads + 2 * 100 = s.clockReads + 200 := by omega
  simp [hiter, hpc, hcr]

/-- C10 (amended): on a filesystem with no pre-existing `model.pt`,
`compute_size` leaves the filesystem unchanged on return — the temporary
file it writes is deleted — and returns a record holding exactly
`size_mb`, the written file's byte size divided by 1024·1024.  (A
pre-existing `model.pt` is overwritten and then deleted, so in that case
the filesystem does change.) -/
theorem c10_compute_size_clean (modelSize : ℕ) (fs : FileSys)
    (hno : ∀ e ∈ fs, e.1 ≠ modelPtPath) :
    compute_size modelSize fs =
      ({ size_mb := (modelSize : ℚ) / (1024 * 1024) }, fs) := by
  have hfilter : fs.filter (fun e => !(e.1 == modelPtPath)) = fs := by
    apply List.filter_eq_self.mpr
    intro a ha
    simp [hno a ha]
  rw [compute_size]
  simp only [fsWrite, fsStat, fsUnlink, hfilter]
  rw [List.find?_cons_of_pos _ (by simp)]
  simp [List.filter_cons, hfilter]

/-- Witness for C10 (amended): on a filesystem holding only an unrelated
file, `compute_size` with a 5-byte state dictionary returns
5 / (1024·1024) megabytes and the untouched filesystem. -/
theorem c10_compute_size_clean_witness :
    (∀ e ∈ [(otherPath, 3)], e.1 ≠ modelPtPath) ∧
    compute_size 5 [(otherPath, 3)] =
      ({ size_mb := ((5 : ℕ) : ℚ) / (1024 * 1024) }, [(otherPath, 3)]) :=
  ⟨by decide, c10_compute_size_clean 5 [(otherPath, 3)] (by decide)⟩

/-- Counterexample to C10 as stated: on a filesystem already holding a file
named `model.pt` (here of 7 bytes), the invocation does not leave the
filesystem unchanged — the pre-existing file is overwritten and then
deleted. -/
theorem c10_counterexample :
    (compute_size 3 [(modelPtPath, 7)]).2 ≠ [(modelPtPath, 7)] := by decide
